import Mathlib

/-!
Shallow embedding of the pyrefcount repository.

The repository ships two example programs, `examples/instance_manager.py`
and `examples/producer_consumer.py`, both built on the reference-counting
primitive `Refcounter` from the `refcount` module.  The module itself is
not among the example sources, so the primitive is modelled from the
specification; the two examples are embedded from their Python sources.

The count is carried as an `Int` so that non-negativity is a provable
invariant rather than a typing artifact.  Callback invocations are
recorded as an explicit event trace (`CbEvent`): an operation returns the
new state together with the list of callbacks it fired, in order.
-/

/-- A callback invocation observed by the caller: the acquire hook or the
release hook of a `Refcounter`. -/
inductive CbEvent where
  | acquire
  | release
deriving DecidableEq

/-- Modelled from the spec: the `Refcounter` data model (the `refcount`
module is not among the sources).  `usecount` is the counter value;
`hasAcquire`/`hasRelease` record whether an acquire/release callback was
supplied at construction ("omitting a callback means no action on that
edge"). -/
structure Refcounter where
  usecount : Int
  hasAcquire : Bool
  hasRelease : Bool
deriving DecidableEq

/-- The single error kind of the primitive: Underflow, raised by a
decrement attempted while the count is 0. -/
inductive RefErr where
  | underflow
deriving DecidableEq

/-- Modelled from the spec: `increment()` (called `inc()` by the examples)
unconditionally raises `count` by 1; if the pre-increment value was 0 the
acquire callback, when set, is invoked as part of the call.  Returns the
new state and the fired-callback trace. -/
def Refcounter.inc (r : Refcounter) : Refcounter × List CbEvent :=
  ({ r with usecount := r.usecount + 1 },
   if r.usecount = 0 ∧ r.hasAcquire = true then [CbEvent.acquire] else [])

/-- Modelled from the spec: `decrement()` (`dec()` in the examples) fails
with Underflow if `count == 0`, leaving the count unchanged and firing no
callback; otherwise it lowers `count` by 1 and, if the post-decrement
value is 0, invokes the release callback when set. -/
def Refcounter.dec (r : Refcounter) : Except RefErr (Refcounter × List CbEvent) :=
  if r.usecount = 0 then Except.error RefErr.underflow
  else Except.ok ({ r with usecount := r.usecount - 1 },
    if r.usecount - 1 = 0 ∧ r.hasRelease = true then [CbEvent.release] else [])

/-- Modelled from the spec: `increment_if_nonzero()` (`inc_not_zero()` in
the examples): if `count == 0`, perform no mutation and return `false`;
otherwise increment and return `true`.  No callback is ever fired. -/
def Refcounter.inc_not_zero (r : Refcounter) : Refcounter × List CbEvent × Bool :=
  if r.usecount = 0 then (r, [], false)
  else ({ r with usecount := r.usecount + 1 }, [], true)

/-- Modelled from the spec: `decrement_and_test()` (`dec_and_test()` in the
examples): decrements like `dec()` but never invokes the release callback;
returns `true` iff the resulting count is 0.  Same Underflow failure as
`dec()`. -/
def Refcounter.dec_and_test (r : Refcounter) :
    Except RefErr (Refcounter × List CbEvent × Bool) :=
  if r.usecount = 0 then Except.error RefErr.underflow
  else Except.ok ({ r with usecount := r.usecount - 1 }, [],
    decide (r.usecount - 1 = 0))

/-- One of the four operations of the primitive, for reasoning about
operation sequences. -/
inductive RefOp where
  | inc
  | dec
  | inc_not_zero
  | dec_and_test
deriving DecidableEq

/-- One operation applied to a state: the next state and the callbacks it
fired.  An operation that raises Underflow leaves the state unchanged and
fires nothing — the exception propagates to the caller. -/
def Refcounter.step (r : Refcounter) : RefOp → Refcounter × List CbEvent
  | RefOp.inc => r.inc
  | RefOp.dec =>
      match r.dec with
      | Except.ok (r2, es) => (r2, es)
      | Except.error _ => (r, [])
  | RefOp.inc_not_zero => ((r.inc_not_zero).1, (r.inc_not_zero).2.1)
  | RefOp.dec_and_test =>
      match r.dec_and_test with
      | Except.ok (r2, es, _) => (r2, es)
      | Except.error _ => (r, [])

/-- The state after a sequence of operations. -/
def Refcounter.runState (r : Refcounter) : List RefOp → Refcounter
  | [] => r
  | op :: ops => ((r.step op).1).runState ops

/-- The concatenated callback trace of a sequence of operations. -/
def Refcounter.runTrace (r : Refcounter) : List RefOp → List CbEvent
  | [] => []
  | op :: ops => (r.step op).2 ++ ((r.step op).1).runTrace ops

/-- Number of genuine 0→positive crossings taken along a sequence of
operations (a step whose pre-state count is 0 and post-state count is
positive). -/
def Refcounter.upCrossings (r : Refcounter) : List RefOp → Nat
  | [] => 0
  | op :: ops =>
      (if r.usecount = 0 ∧ 0 < ((r.step op).1).usecount then 1 else 0) +
        ((r.step op).1).upCrossings ops

/-- Number of genuine positive→0 crossings taken along a sequence of
operations. -/
def Refcounter.downCrossings (r : Refcounter) : List RefOp → Nat
  | [] => 0
  | op :: ops =>
      (if 0 < r.usecount ∧ ((r.step op).1).usecount = 0 then 1 else 0) +
        ((r.step op).1).downCrossings ops

/-- Modelled from the spec: `inc()` with a fallible acquire callback.  The
callback is modelled by its outcome (`Except E Unit`).  The count mutation
is committed first; on the acquire edge the callback then runs and its
outcome — including an exception — is what the caller sees, while the
committed state survives.  The operation returns the state the object is
left in together with the outcome seen by the caller. -/
def Refcounter.incWithCb (E : Type) (r : Refcounter) (cb : Except E Unit) :
    Refcounter × Except E Unit :=
  let r2 : Refcounter := { r with usecount := r.usecount + 1 }
  if r.usecount = 0 ∧ r.hasAcquire = true then (r2, cb) else (r2, Except.ok ())

/-- Modelled from the spec: `dec()` with a fallible release callback, with
the same commit-before-callback ordering as `Refcounter.incWithCb`. -/
def Refcounter.decWithCb (E : Type) (r : Refcounter) (cb : Except E Unit) :
    Except RefErr (Refcounter × Except E Unit) :=
  if r.usecount = 0 then Except.error RefErr.underflow
  else
    let r2 : Refcounter := { r with usecount := r.usecount - 1 }
    if r.usecount - 1 = 0 ∧ r.hasRelease = true then Except.ok (r2, cb)
    else Except.ok (r2, Except.ok ())

/-!
Embedding of `examples/instance_manager.py`.

Python instance identity is modelled by an `id`; `example_attr` records
whether the object carries the capability marker probed by
`hasattr(instance, 'example_attr')` (`ExpensiveSubclass` sets it, the
other subclasses do not).
-/

/-- A managed handler instance: its identity and whether it carries the
`example_attr` capability marker. -/
structure Inst where
  id : Nat
  example_attr : Bool
deriving DecidableEq

/-- Applying a callback trace to the manager's `convert_data` flag: the
acquire callback is `set_convert_data` (sets it to `true`), the release
callback is `clear_convert_data` (sets it to `false`). -/
def applyConvertEvents (b : Bool) : List CbEvent → Bool
  | [] => b
  | CbEvent.acquire :: es => applyConvertEvents true es
  | CbEvent.release :: es => applyConvertEvents false es

/-- The `InstanceManager` state: the `convert_data` flag, the
`converted_data_users` refcounter (constructed with both callbacks set),
and the `instances` list. -/
structure InstanceManager where
  convert_data : Bool
  converted_data_users : Refcounter
  instances : List Inst
deriving DecidableEq

/-- `InstanceManager.add_instance`: if the instance has the capability
marker, `inc()` the counter (its callback trace drives `convert_data`);
then append the instance to the list. -/
def InstanceManager.add_instance (m : InstanceManager) (inst : Inst) :
    InstanceManager :=
  let m2 :=
    if inst.example_attr then
      { m with converted_data_users := (m.converted_data_users.inc).1,
               convert_data :=
                 applyConvertEvents m.convert_data (m.converted_data_users.inc).2 }
    else m
  { m2 with instances := m2.instances ++ [inst] }

/-- `InstanceManager.remove_instance`: scan `instances` for the first
occurrence equal to `inst`; when found, `dec()` the counter if the
instance has the capability marker (Underflow, if raised there,
propagates before any removal happens) and remove that one occurrence;
when no occurrence exists the method returns without doing anything. -/
def InstanceManager.remove_instance (m : InstanceManager) (inst : Inst) :
    Except RefErr InstanceManager :=
  if inst ∈ m.instances then
    if inst.example_attr then
      match m.converted_data_users.dec with
      | Except.error e => Except.error e
      | Except.ok (r2, es) =>
          Except.ok { m with converted_data_users := r2,
                             convert_data := applyConvertEvents m.convert_data es,
                             instances := m.instances.erase inst }
    else Except.ok { m with instances := m.instances.erase inst }
  else Except.ok m

/-- `InstanceManager.__init__`: `convert_data` starts `false`, the counter
starts at 0 with `set_convert_data`/`clear_convert_data` as the
acquire/release callbacks, and every instance of the constructor argument
is added through `add_instance`. -/
def InstanceManager.init (insts : List Inst) : InstanceManager :=
  insts.foldl (fun m inst => m.add_instance inst)
    { convert_data := false,
      converted_data_users := { usecount := 0, hasAcquire := true, hasRelease := true },
      instances := [] }

/-- A mutation of the manager after construction. -/
inductive MgrOp where
  | add (inst : Inst)
  | remove (inst : Inst)

/-- Running a sequence of `add_instance`/`remove_instance` calls.  A
`remove_instance` that raises Underflow leaves the manager unchanged (the
counter rejects the decrement before any mutation). -/
def InstanceManager.runOps (m : InstanceManager) : List MgrOp → InstanceManager
  | [] => m
  | MgrOp.add inst :: ops => (m.add_instance inst).runOps ops
  | MgrOp.remove inst :: ops =>
      match m.remove_instance inst with
      | Except.ok m2 => m2.runOps ops
      | Except.error _ => m.runOps ops

/-- The number of instances in a list that carry the capability marker. -/
def countMarked (l : List Inst) : Nat :=
  (l.filter (fun i => i.example_attr)).length

/-- The state invariant of `InstanceManager`: the counter counts exactly
the registered marker-carrying instances, the `convert_data` flag mirrors
counter positivity, and both callbacks are set (as the constructor sets
them). -/
def MgrInv (m : InstanceManager) : Prop :=
  m.converted_data_users.usecount = (countMarked m.instances : Int) ∧
  m.convert_data = decide (0 < m.converted_data_users.usecount) ∧
  m.converted_data_users.hasAcquire = true ∧
  m.converted_data_users.hasRelease = true

/-!
Embedding of `examples/producer_consumer.py`.

The background `StoppableThread` is modelled by whether a producer thread
is currently live (`threadRunning`); `add_consumer` reports whether it
started a thread and `del_consumer` whether it stopped and joined one.
-/

/-- The `ProducerClass` state: the `consumers` refcounter (constructed
with count 0 and no callbacks) and whether a producer thread is live. -/
structure ProducerClass where
  consumers : Refcounter
  threadRunning : Bool
deriving DecidableEq

/-- `ProducerClass.__init__`: refcount 0, no callbacks, no thread. -/
def ProducerClass.init : ProducerClass :=
  { consumers := { usecount := 0, hasAcquire := false, hasRelease := false },
    threadRunning := false }

/-- `ProducerClass.add_consumer`: try `inc_not_zero()`; when it returns
`false`, manually `inc()` and start the producer thread.  The returned
`Bool` records whether a thread was started by this call. -/
def ProducerClass.add_consumer (p : ProducerClass) : ProducerClass × Bool :=
  if ((p.consumers.inc_not_zero).2.2) = false then
    ({ p with consumers := (((p.consumers.inc_not_zero).1).inc).1,
              threadRunning := true }, true)
  else ({ p with consumers := (p.consumers.inc_not_zero).1 }, false)

/-- `ProducerClass.del_consumer`: `dec_and_test()`; on `true`, stop and
join the producer thread.  The returned `Bool` records whether the thread
was stopped and joined by this call; Underflow propagates. -/
def ProducerClass.del_consumer (p : ProducerClass) :
    Except RefErr (ProducerClass × Bool) :=
  match p.consumers.dec_and_test with
  | Except.error e => Except.error e
  | Except.ok (r2, _, b) =>
      if b then Except.ok ({ p with consumers := r2, threadRunning := false }, true)
      else Except.ok ({ p with consumers := r2 }, false)

/-! Helper lemmas. -/

theorem Refcounter.step_hasAcquire (r : Refcounter) (op : RefOp) :
    ((r.step op).1).hasAcquire = r.hasAcquire := by
  by_cases h : r.usecount = 0 <;>
    cases op <;>
      simp [Refcounter.step, Refcounter.inc, Refcounter.dec,
        Refcounter.inc_not_zero, Refcounter.dec_and_test, h]

theorem Refcounter.step_hasRelease (r : Refcounter) (op : RefOp) :
    ((r.step op).1).hasRelease = r.hasRelease := by
  by_cases h : r.usecount = 0 <;>
    cases op <;>
      simp [Refcounter.step, Refcounter.inc, Refcounter.dec,
        Refcounter.inc_not_zero, Refcounter.dec_and_test, h]

theorem Refcounter.step_usecount_nonneg (r : Refcounter) (op : RefOp)
    (h : 0 ≤ r.usecount) : 0 ≤ ((r.step op).1).usecount := by
  by_cases h0 : r.usecount = 0 <;>
    cases op <;>
      simp [Refcounter.step, Refcounter.inc, Refcounter.dec,
        Refcounter.inc_not_zero, Refcounter.dec_and_test, h0] <;>
      omega

theorem Refcounter.runState_nonneg (r : Refcounter) (ops : List RefOp)
    (h : 0 ≤ r.usecount) : 0 ≤ (r.runState ops).usecount := by
  induction ops generalizing r with
  | nil => simpa [Refcounter.runState] using h
  | cons op ops ih =>
      rw [Refcounter.runState]
      exact ih _ (Refcounter.step_usecount_nonneg r op h)

theorem Refcounter.dec_of_zero (s : Refcounter) (h : s.usecount = 0) :
    s.dec = Except.error RefErr.underflow ∧
    s.dec_and_test = Except.error RefErr.underflow ∧
    s.step RefOp.dec = (s, []) ∧
    s.step RefOp.dec_and_test = (s, []) := by
  refine ⟨?_, ?_, ?_, ?_⟩ <;>
    simp [Refcounter.dec, Refcounter.dec_and_test, Refcounter.step, h]

/-- C1: from any state with a non-negative count, the count stays
non-negative after every sequence of operations, and at any reachable
state with count 0 both `dec()` and `dec_and_test()` raise Underflow while
leaving the state unchanged and firing no callback. -/
theorem Refcounter.nonneg_and_underflow (r : Refcounter) (ops : List RefOp)
    (h0 : 0 ≤ r.usecount) :
    0 ≤ (r.runState ops).usecount ∧
    ((r.runState ops).usecount = 0 →
      (r.runState ops).dec = Except.error RefErr.underflow ∧
      (r.runState ops).dec_and_test = Except.error RefErr.underflow ∧
      (r.runState ops).step RefOp.dec = (r.runState ops, []) ∧
      (r.runState ops).step RefOp.dec_and_test = (r.runState ops, [])) :=
  ⟨Refcounter.runState_nonneg r ops h0,
   fun h => Refcounter.dec_of_zero (r.runState ops) h⟩

/-- Witness for C1 at the concrete state `Refcounter(0, A, R)` after
`inc(); dec()`: the count is non-negative (it is 0) and a further
decrement underflows without mutating. -/
theorem Refcounter.nonneg_and_underflow_witness :
    0 ≤ ((Refcounter.mk 0 true true).runState [RefOp.inc, RefOp.dec]).usecount ∧
    ((Refcounter.mk 0 true true).runState [RefOp.inc, RefOp.dec]).dec
      = Except.error RefErr.underflow := by
  have h := Refcounter.nonneg_and_underflow (Refcounter.mk 0 true true)
    [RefOp.inc, RefOp.dec] (by decide)
  exact ⟨h.1, (h.2 (by decide)).1⟩

/-- C2: `Refcounter(0, acquire=A, release=R)`; `inc()` → count 1 with A
fired once; `inc()` → count 2, no further callback; `dec()` → count 1, no
further callback; `dec()` → count 0 with R fired once, the whole trace
being exactly acquire then release. -/
theorem Refcounter.scenario_one :
    ((Refcounter.mk 0 true true).runState [RefOp.inc]).usecount = 1 ∧
    (Refcounter.mk 0 true true).runTrace [RefOp.inc] = [CbEvent.acquire] ∧
    ((Refcounter.mk 0 true true).runState [RefOp.inc, RefOp.inc]).usecount = 2 ∧
    (Refcounter.mk 0 true true).runTrace [RefOp.inc, RefOp.inc]
      = [CbEvent.acquire] ∧
    ((Refcounter.mk 0 true true).runState
      [RefOp.inc, RefOp.inc, RefOp.dec]).usecount = 1 ∧
    (Refcounter.mk 0 true true).runTrace [RefOp.inc, RefOp.inc, RefOp.dec]
      = [CbEvent.acquire] ∧
    ((Refcounter.mk 0 true true).runState
      [RefOp.inc, RefOp.inc, RefOp.dec, RefOp.dec]).usecount = 0 ∧
    (Refcounter.mk 0 true true).runTrace
      [RefOp.inc, RefOp.inc, RefOp.dec, RefOp.dec]
      = [CbEvent.acquire, CbEvent.release] := by
  decide

/-- C3: `inc_not_zero()` called at count 0 returns `false` and performs no
mutation at all; called at a positive count it increments by exactly 1,
returns `true` and fires no callback. -/
theorem Refcounter.inc_not_zero_spec (r : Refcounter) :
    (r.usecount = 0 → r.inc_not_zero = (r, [], false)) ∧
    (0 < r.usecount →
      r.inc_not_zero = ({ r with usecount := r.usecount + 1 }, [], true)) := by
  constructor
  · intro h
    simp [Refcounter.inc_not_zero, h]
  · intro h
    have hne : ¬ r.usecount = 0 := by omega
    simp [Refcounter.inc_not_zero, hne]

/-- Witness for C3: Scenario 2 (`Refcounter(0)`: returns `false`, count
stays 0) and Scenario 3 (`Refcounter(1)`: returns `true`, count becomes
2). -/
theorem Refcounter.inc_not_zero_spec_witness :
    (Refcounter.mk 0 false false).inc_not_zero
      = (Refcounter.mk 0 false false, [], false) ∧
    (Refcounter.mk 1 false false).inc_not_zero
      = (Refcounter.mk 2 false false, [], true) :=
  ⟨(Refcounter.inc_not_zero_spec (Refcounter.mk 0 false false)).1 (by decide),
   (Refcounter.inc_not_zero_spec (Refcounter.mk 1 false false)).2 (by decide)⟩

/-- C4: with count ≥ 1, `dec_and_test()` decreases the count by exactly 1,
fires no callback, and returns `true` iff the resulting count is 0; with
count 0 it raises Underflow exactly as `dec()` does. -/
theorem Refcounter.dec_and_test_spec (r : Refcounter) :
    (1 ≤ r.usecount →
      ∃ r2 b, r.dec_and_test = Except.ok (r2, [], b) ∧
        r2.usecount = r.usecount - 1 ∧
        r2.hasAcquire = r.hasAcquire ∧ r2.hasRelease = r.hasRelease ∧
        (b = true ↔ r2.usecount = 0)) ∧
    (r.usecount = 0 →
      r.dec_and_test = Except.error RefErr.underflow ∧
      r.dec = Except.error RefErr.underflow) := by
  constructor
  · intro h
    have hne : ¬ r.usecount = 0 := by omega
    refine ⟨{ r with usecount := r.usecount - 1 }, decide (r.usecount - 1 = 0),
      by simp [Refcounter.dec_and_test, hne], rfl, rfl, rfl, by simp⟩
  · intro h
    exact ⟨by simp [Refcounter.dec_and_test, h], by simp [Refcounter.dec, h]⟩

/-- Witness for C4: from count 1 the call yields a state of count 0 and
returns `true` (Scenario 5); from count 0 it underflows. -/
theorem Refcounter.dec_and_test_spec_witness :
    (∃ r2 b, (Refcounter.mk 1 false false).dec_and_test = Except.ok (r2, [], b) ∧
      r2.usecount = (Refcounter.mk 1 false false).usecount - 1 ∧
      r2.hasAcquire = (Refcounter.mk 1 false false).hasAcquire ∧
      r2.hasRelease = (Refcounter.mk 1 false false).hasRelease ∧
      (b = true ↔ r2.usecount = 0)) ∧
    (Refcounter.mk 0 false false).dec_and_test = Except.error RefErr.underflow :=
  ⟨(Refcounter.dec_and_test_spec (Refcounter.mk 1 false false)).1 (by decide),
   ((Refcounter.dec_and_test_spec (Refcounter.mk 0 false false)).2 (by decide)).1⟩

/-- C5: from count 0 with both callbacks set, `inc(); dec()` returns the
count to 0 and the callback trace is exactly one acquire followed by one
release. -/
theorem Refcounter.round_trip :
    ((Refcounter.mk 0 true true).runState [RefOp.inc, RefOp.dec]).usecount = 0 ∧
    (Refcounter.mk 0 true true).runTrace [RefOp.inc, RefOp.dec]
      = [CbEvent.acquire, CbEvent.release] := by
  decide

/-- C6: a callback failure (modelled as an `Except.error` outcome of the
callback) propagates to the caller of `inc()`/`dec()` uncaught, and the
count mutation is already committed when the callback runs, so the state
the object is left in carries the new count even when the callback
fails. -/
theorem Refcounter.callback_exception_commit (E : Type) (e : E) (r : Refcounter) :
    ((Refcounter.incWithCb E r (Except.error e)).1).usecount = r.usecount + 1 ∧
    (r.usecount = 0 → r.hasAcquire = true →
      (Refcounter.incWithCb E r (Except.error e)).2 = Except.error e) ∧
    (1 ≤ r.usecount →
      ∃ r2 out, Refcounter.decWithCb E r (Except.error e) = Except.ok (r2, out) ∧
        r2.usecount = r.usecount - 1 ∧
        (r.usecount = 1 → r.hasRelease = true → out = Except.error e)) := by
  refine ⟨?_, ?_, ?_⟩
  · by_cases h : r.usecount = 0 ∧ r.hasAcquire = true <;>
      simp [Refcounter.incWithCb, h]
  · intro h0 hA
    simp [Refcounter.incWithCb, h0, hA]
  · intro h
    have hne : ¬ r.usecount = 0 := by omega
    by_cases hrel : r.usecount - 1 = 0 ∧ r.hasRelease = true
    · exact ⟨{ r with usecount := r.usecount - 1 }, Except.error e,
        by simp [Refcounter.decWithCb, hne, hrel], rfl, fun _ _ => rfl⟩
    · refine ⟨{ r with usecount := r.usecount - 1 }, Except.ok (),
        by simp [Refcounter.decWithCb, hne, hrel], rfl, fun h1 hR => ?_⟩
      exact absurd ⟨by omega, hR⟩ hrel

/-- Witness for C6: at `Refcounter(0, A, R)` a failing acquire callback
leaves the count at 1 and surfaces the error; at count 1 a failing release
callback is surfaced by `dec()` with the count already at 0. -/
theorem Refcounter.callback_exception_commit_witness :
    ((Refcounter.incWithCb Unit (Refcounter.mk 0 true true)
        (Except.error ())).1).usecount = 1 ∧
    (Refcounter.incWithCb Unit (Refcounter.mk 0 true true)
        (Except.error ())).2 = Except.error () ∧
    (∃ r2 out, Refcounter.decWithCb Unit (Refcounter.mk 1 true true)
        (Except.error ()) = Except.ok (r2, out) ∧
      r2.usecount = 0 ∧
      ((Refcounter.mk 1 true true).usecount = 1 →
        (Refcounter.mk 1 true true).hasRelease = true →
        out = Except.error ())) := by
  have h := Refcounter.callback_exception_commit Unit () (Refcounter.mk 0 true true)
  have h2 := Refcounter.callback_exception_commit Unit () (Refcounter.mk 1 true true)
  refine ⟨h.1, h.2.1 (by decide) (by decide), ?_⟩
  obtain ⟨r2, out, ha, hb, hc⟩ := h2.2.2 (by decide)
  exact ⟨r2, out, ha, by simpa using hb, hc⟩

theorem Refcounter.step_count_events (r : Refcounter) (op : RefOp)
    (hA : r.hasAcquire = true) (hR : r.hasRelease = true)
    (hop : op = RefOp.inc ∨ op = RefOp.dec) :
    ((r.step op).2).count CbEvent.acquire
      = (if r.usecount = 0 ∧ 0 < ((r.step op).1).usecount then 1 else 0) ∧
    ((r.step op).2).count CbEvent.release
      = (if 0 < r.usecount ∧ ((r.step op).1).usecount = 0 then 1 else 0) := by
  rcases hop with h | h <;> subst h <;> by_cases h0 : r.usecount = 0 <;>
    by_cases h1 : r.usecount - 1 = 0 <;>
      constructor <;>
        simp [Refcounter.step, Refcounter.inc, Refcounter.dec, h0, h1, hA, hR] <;>
          first
            | omega
            | (split <;> omega)

/-- C7: along any linearized interleaving of `inc()`/`dec()` calls (the
spec requires all operations to be serialized, so an interleaving of N
concurrent calls is a sequence of atomic steps), the number of acquire
callback invocations equals the number of 0→positive crossings actually
taken and the number of release invocations equals the number of
positive→0 crossings taken — never more, never fewer; each event is
produced by exactly one step of the sequence. -/
theorem Refcounter.single_fire_edges (r : Refcounter) (ops : List RefOp)
    (hA : r.hasAcquire = true) (hR : r.hasRelease = true)
    (hops : ∀ op ∈ ops, op = RefOp.inc ∨ op = RefOp.dec) :
    (r.runTrace ops).count CbEvent.acquire = r.upCrossings ops ∧
    (r.runTrace ops).count CbEvent.release = r.downCrossings ops := by
  induction ops generalizing r with
  | nil => simp [Refcounter.runTrace, Refcounter.upCrossings, Refcounter.downCrossings]
  | cons op ops ih =>
      have hstep := Refcounter.step_count_events r op hA hR
        (hops op (List.mem_cons_self op ops))
      have hA2 : ((r.step op).1).hasAcquire = true := by
        rw [Refcounter.step_hasAcquire]; exact hA
      have hR2 : ((r.step op).1).hasRelease = true := by
        rw [Refcounter.step_hasRelease]; exact hR
      have hrest := ih ((r.step op).1) hA2 hR2
        (fun o ho => hops o (List.mem_cons_of_mem op ho))
      constructor
      · rw [Refcounter.runTrace, Refcounter.upCrossings, List.count_append,
          hstep.1, hrest.1]
      · rw [Refcounter.runTrace, Refcounter.downCrossings, List.count_append,
          hstep.2, hrest.2]

/-- Witness for C7: the sequence `inc(); inc(); dec(); dec(); dec()` from
count 0 (the last `dec()` underflows) fires acquire once and release once,
matching its one up-crossing and one down-crossing. -/
theorem Refcounter.single_fire_edges_witness :
    ((Refcounter.mk 0 true true).runTrace
        [RefOp.inc, RefOp.inc, RefOp.dec, RefOp.dec, RefOp.dec]).count
        CbEvent.acquire
      = (Refcounter.mk 0 true true).upCrossings
          [RefOp.inc, RefOp.inc, RefOp.dec, RefOp.dec, RefOp.dec] ∧
    ((Refcounter.mk 0 true true).runTrace
        [RefOp.inc, RefOp.inc, RefOp.dec, RefOp.dec, RefOp.dec]).count
        CbEvent.release
      = (Refcounter.mk 0 true true).downCrossings
          [RefOp.inc, RefOp.inc, RefOp.dec, RefOp.dec, RefOp.dec] :=
  Refcounter.single_fire_edges (Refcounter.mk 0 true true)
    [RefOp.inc, RefOp.inc, RefOp.dec, RefOp.dec, RefOp.dec]
    (by decide) (by decide) (by decide)

theorem countMarked_append (l1 l2 : List Inst) :
    countMarked (l1 ++ l2) = countMarked l1 + countMarked l2 := by
  simp [countMarked, List.filter_append]

theorem countMarked_pos_iff (l : List Inst) :
    0 < countMarked l ↔ ∃ i ∈ l, i.example_attr = true := by
  rw [countMarked, List.length_pos_iff_exists_mem]
  constructor
  · rintro ⟨x, hx⟩
    rw [List.mem_filter] at hx
    exact ⟨x, hx.1, hx.2⟩
  · rintro ⟨i, hi, hm⟩
    exact ⟨i, List.mem_filter.mpr ⟨hi, hm⟩⟩

theorem countMarked_erase (l : List Inst) (i : Inst) (h : i ∈ l) :
    countMarked l = countMarked (l.erase i)
      + (if i.example_attr = true then 1 else 0) := by
  induction l with
  | nil => cases h
  | cons a l ih =>
      by_cases hai : a = i
      · subst hai
        rw [List.erase_cons_head]
        by_cases hm : a.example_attr = true <;>
          simp [countMarked, List.filter_cons, hm]
      · have h2 : i ∈ l := by
          rcases List.mem_cons.mp h with h' | h'
          · exact absurd h'.symm hai
          · exact h'
        rw [List.erase_cons_tail (by simpa using hai)]
        by_cases hm : a.example_attr = true <;>
          simp [countMarked, List.filter_cons, hm] <;>
            have := ih h2 <;> simp [countMarked] at this <;> omega

theorem countMarked_singleton (i : Inst) :
    countMarked [i] = if i.example_attr = true then 1 else 0 := by
  by_cases hm : i.example_attr = true <;> simp [countMarked, hm]

theorem InstanceManager.add_instance_eq (m : InstanceManager) (inst : Inst)
    (hA : m.converted_data_users.hasAcquire = true) :
    m.add_instance inst =
      if inst.example_attr = true then
        { convert_data :=
            if m.converted_data_users.usecount = 0 then true else m.convert_data,
          converted_data_users :=
            { m.converted_data_users with
                usecount := m.converted_data_users.usecount + 1 },
          instances := m.instances ++ [inst] }
      else { m with instances := m.instances ++ [inst] } := by
  by_cases hm : inst.example_attr = true <;>
    by_cases h0 : m.converted_data_users.usecount = 0 <;>
      simp [InstanceManager.add_instance, Refcounter.inc, hm, h0, hA,
        applyConvertEvents]

theorem InstanceManager.add_instance_inv (m : InstanceManager) (inst : Inst)
    (h : MgrInv m) : MgrInv (m.add_instance inst) := by
  obtain ⟨h1, h2, h3, h4⟩ := h
  rw [InstanceManager.add_instance_eq m inst h3]
  by_cases hm : inst.example_attr = true
  · rw [if_pos hm]
    refine ⟨?_, ?_, h3, h4⟩
    · show m.converted_data_users.usecount + 1
        = (countMarked (m.instances ++ [inst]) : Int)
      rw [countMarked_append, countMarked_singleton, if_pos hm, h1]
      push_cast
      ring
    · show (if m.converted_data_users.usecount = 0 then true else m.convert_data)
        = decide (0 < m.converted_data_users.usecount + 1)
      have hnn : 0 ≤ m.converted_data_users.usecount := by
        rw [h1]; exact Int.natCast_nonneg _
      by_cases h0 : m.converted_data_users.usecount = 0
      · rw [if_pos h0, h0]
        norm_num
      · rw [if_neg h0, h2, decide_eq_true (by omega : (0:Int) < m.converted_data_users.usecount),
          decide_eq_true (by omega : (0:Int) < m.converted_data_users.usecount + 1)]
  · rw [if_neg hm]
    refine ⟨?_, h2, h3, h4⟩
    show m.converted_data_users.usecount = (countMarked (m.instances ++ [inst]) : Int)
    rw [countMarked_append, countMarked_singleton, if_neg hm, h1]
    push_cast
    ring

theorem InstanceManager.remove_instance_not_mem (m : InstanceManager)
    (inst : Inst) (hmem : inst ∉ m.instances) :
    m.remove_instance inst = Except.ok m := by
  simp [InstanceManager.remove_instance, hmem]

theorem InstanceManager.remove_instance_eq (m : InstanceManager) (inst : Inst)
    (hmem : inst ∈ m.instances) (hR : m.converted_data_users.hasRelease = true)
    (hne : ¬ m.converted_data_users.usecount = 0) :
    m.remove_instance inst =
      Except.ok (if inst.example_attr = true then
        { convert_data :=
            if m.converted_data_users.usecount - 1 = 0 then false
            else m.convert_data,
          converted_data_users :=
            { m.converted_data_users with
                usecount := m.converted_data_users.usecount - 1 },
          instances := m.instances.erase inst }
      else { m with instances := m.instances.erase inst }) := by
  by_cases hm : inst.example_attr = true <;>
    by_cases h1 : m.converted_data_users.usecount - 1 = 0 <;>
      simp [InstanceManager.remove_instance, hmem, hm, Refcounter.dec, hne, h1,
        hR, applyConvertEvents]

theorem countMarked_pos_of_marked_mem (l : List Inst) (i : Inst) (h : i ∈ l)
    (hm : i.example_attr = true) : 1 ≤ countMarked l :=
  (countMarked_pos_iff l).mpr ⟨i, h, hm⟩

theorem InstanceManager.remove_instance_unmarked (m : InstanceManager)
    (inst : Inst) (hmem : inst ∈ m.instances)
    (hm : ¬ inst.example_attr = true) :
    m.remove_instance inst
      = Except.ok { m with instances := m.instances.erase inst } := by
  simp [InstanceManager.remove_instance, hmem, hm]

theorem InstanceManager.remove_instance_inv (m : InstanceManager) (inst : Inst)
    (h : MgrInv m) (m2 : InstanceManager)
    (hok : m.remove_instance inst = Except.ok m2) : MgrInv m2 := by
  obtain ⟨h1, h2, h3, h4⟩ := h
  by_cases hmem : inst ∈ m.instances
  · by_cases hm : inst.example_attr = true
    · have hpos : 1 ≤ countMarked m.instances :=
        countMarked_pos_of_marked_mem m.instances inst hmem hm
      have hne : ¬ m.converted_data_users.usecount = 0 := by
        rw [h1]; omega
      rw [InstanceManager.remove_instance_eq m inst hmem h4 hne, if_pos hm] at hok
      have herase := countMarked_erase m.instances inst hmem
      rw [if_pos hm] at herase
      cases hok
      refine ⟨?_, ?_, h3, h4⟩
      · show m.converted_data_users.usecount - 1
          = (countMarked (m.instances.erase inst) : Int)
        rw [h1]
        omega
      · show (if m.converted_data_users.usecount - 1 = 0 then false
            else m.convert_data)
          = decide (0 < m.converted_data_users.usecount - 1)
        by_cases h0 : m.converted_data_users.usecount - 1 = 0
        · rw [if_pos h0, h0]
          norm_num
        · have hnn : 0 ≤ m.converted_data_users.usecount - 1 := by
            rw [h1]
            omega
          rw [if_neg h0, h2,
            decide_eq_true (by omega : (0:Int) < m.converted_data_users.usecount),
            decide_eq_true (by omega :
              (0:Int) < m.converted_data_users.usecount - 1)]
    · have herase := countMarked_erase m.instances inst hmem
      rw [if_neg hm] at herase
      rw [InstanceManager.remove_instance_unmarked m inst hmem hm] at hok
      cases hok
      refine ⟨?_, h2, h3, h4⟩
      show m.converted_data_users.usecount
        = (countMarked (m.instances.erase inst) : Int)
      rw [h1]
      omega
  · rw [InstanceManager.remove_instance_not_mem m inst hmem] at hok
    cases hok
    exact ⟨h1, h2, h3, h4⟩

theorem InstanceManager.runOps_inv (m : InstanceManager) (ops : List MgrOp)
    (h : MgrInv m) : MgrInv (m.runOps ops) := by
  induction ops generalizing m with
  | nil => exact h
  | cons op ops ih =>
      cases op with
      | add inst =>
          rw [InstanceManager.runOps]
          exact ih _ (InstanceManager.add_instance_inv m inst h)
      | remove inst =>
          rw [InstanceManager.runOps]
          cases hok : m.remove_instance inst with
          | ok m2 => exact ih _ (InstanceManager.remove_instance_inv m inst h m2 hok)
          | error e => exact ih _ h

theorem InstanceManager.init_inv (insts : List Inst) :
    MgrInv (InstanceManager.init insts) := by
  rw [InstanceManager.init]
  generalize hstart :
    ({ convert_data := false,
       converted_data_users := { usecount := 0, hasAcquire := true, hasRelease := true },
       instances := [] } : InstanceManager) = m0
  have h0 : MgrInv m0 := by
    cases hstart
    exact ⟨by simp [countMarked], by norm_num, rfl, rfl⟩
  clear hstart
  induction insts generalizing m0 with
  | nil => exact h0
  | cons a l ih =>
      rw [List.foldl_cons]
      exact ih _ (InstanceManager.add_instance_inv m0 a h0)

/-- C8: after construction and after every `add_instance`/`remove_instance`
call starting from a freshly constructed manager, `convert_data` is `true`
iff the counter's count is positive, which holds iff some currently
registered instance carries the `example_attr` capability marker; the flag
is driven purely by the acquire/release callback trace of the counter. -/
theorem InstanceManager.convert_data_iff (insts : List Inst) (ops : List MgrOp) :
    (((InstanceManager.init insts).runOps ops).convert_data = true ↔
      0 < ((InstanceManager.init insts).runOps ops).converted_data_users.usecount) ∧
    (((InstanceManager.init insts).runOps ops).convert_data = true ↔
      ∃ i ∈ ((InstanceManager.init insts).runOps ops).instances,
        i.example_attr = true) := by
  obtain ⟨h1, h2, h3, h4⟩ :=
    InstanceManager.runOps_inv (InstanceManager.init insts) ops
      (InstanceManager.init_inv insts)
  constructor
  · rw [h2]
    simp
  · rw [h2, h1]
    rw [← countMarked_pos_iff]
    constructor
    · intro h
      have := of_decide_eq_true h
      omega
    · intro h
      apply decide_eq_true
      omega

/-- C10: `remove_instance` with an instance not in the list is a no-op
that returns normally and changes nothing; with the instance present
(possibly several times) in a manager satisfying the state invariant,
exactly one occurrence is removed and the counter is decremented exactly
once when the instance is marked and not at all otherwise — hence at most
once. -/
theorem InstanceManager.remove_instance_frame (m : InstanceManager) (inst : Inst) :
    (inst ∉ m.instances → m.remove_instance inst = Except.ok m) ∧
    (inst ∈ m.instances → MgrInv m →
      ∃ m2, m.remove_instance inst = Except.ok m2 ∧
        m2.instances = m.instances.erase inst ∧
        m2.instances.length + 1 = m.instances.length ∧
        m2.converted_data_users.usecount
            + (if inst.example_attr = true then 1 else 0)
          = m.converted_data_users.usecount ∧
        (inst.example_attr = false →
          m2.convert_data = m.convert_data ∧
          m2.converted_data_users = m.converted_data_users)) := by
  constructor
  · exact InstanceManager.remove_instance_not_mem m inst
  · intro hmem h
    obtain ⟨h1, h2, h3, h4⟩ := h
    by_cases hm : inst.example_attr = true
    · have hpos : 1 ≤ countMarked m.instances :=
        countMarked_pos_of_marked_mem m.instances inst hmem hm
      have hne : ¬ m.converted_data_users.usecount = 0 := by
        rw [h1]; omega
      refine ⟨_, by rw [InstanceManager.remove_instance_eq m inst hmem h4 hne,
        if_pos hm], rfl, List.length_erase_add_one hmem, ?_, ?_⟩
      · rw [if_pos hm]
        show m.converted_data_users.usecount - 1 + 1 = m.converted_data_users.usecount
        ring
      · intro hfalse
        rw [hm] at hfalse
        cases hfalse
    · refine ⟨_, InstanceManager.remove_instance_unmarked m inst hmem hm,
        rfl, List.length_erase_add_one hmem, ?_, fun _ => ⟨rfl, rfl⟩⟩
      rw [if_neg hm]
      ring

/-- Witness for C10: in a freshly built manager holding one marked
instance, removing an absent instance is a no-op and removing the present
instance removes it and decrements the counter once. -/
theorem InstanceManager.remove_instance_frame_witness :
    ((InstanceManager.init [Inst.mk 0 true]).remove_instance (Inst.mk 1 true)
      = Except.ok (InstanceManager.init [Inst.mk 0 true])) ∧
    (∃ m2, (InstanceManager.init [Inst.mk 0 true]).remove_instance (Inst.mk 0 true)
        = Except.ok m2 ∧
      m2.instances = (InstanceManager.init [Inst.mk 0 true]).instances.erase
        (Inst.mk 0 true) ∧
      m2.instances.length + 1
        = (InstanceManager.init [Inst.mk 0 true]).instances.length ∧
      m2.converted_data_users.usecount
          + (if (Inst.mk 0 true).example_attr = true then 1 else 0)
        = (InstanceManager.init [Inst.mk 0 true]).converted_data_users.usecount ∧
      ((Inst.mk 0 true).example_attr = false →
        m2.convert_data = (InstanceManager.init [Inst.mk 0 true]).convert_data ∧
        m2.converted_data_users
          = (InstanceManager.init [Inst.mk 0 true]).converted_data_users)) := by
  have h := InstanceManager.remove_instance_frame
    (InstanceManager.init [Inst.mk 0 true]) (Inst.mk 0 true)
  have h2 := InstanceManager.remove_instance_frame
    (InstanceManager.init [Inst.mk 0 true]) (Inst.mk 1 true)
  refine ⟨h2.1 (by decide), h.2 (by decide) ?_⟩
  unfold MgrInv
  refine ⟨by decide, by decide, by decide, by decide⟩

/-- C9: `add_consumer` raises the consumer count by exactly 1 — through
`inc_not_zero()`, falling back to a manual `inc()` when it returned
`false` — and starts a new producer thread iff the count was 0 before the
call; `del_consumer` decrements through `dec_and_test()` (underflowing at
count 0) and stops and joins the producer thread iff that call returned
`true`, that is, iff the count reached 0. -/
theorem ProducerClass.lifecycle_spec (p : ProducerClass) :
    ((p.add_consumer).1.consumers.usecount = p.consumers.usecount + 1) ∧
    ((p.add_consumer).2 = true ↔ p.consumers.usecount = 0) ∧
    ((p.add_consumer).1.threadRunning
      = (if p.consumers.usecount = 0 then true else p.threadRunning)) ∧
    (p.consumers.usecount = 0 →
      p.del_consumer = Except.error RefErr.underflow) ∧
    (1 ≤ p.consumers.usecount →
      ∃ p2 stopped, p.del_consumer = Except.ok (p2, stopped) ∧
        p2.consumers.usecount = p.consumers.usecount - 1 ∧
        (stopped = true ↔ p2.consumers.usecount = 0) ∧
        p2.threadRunning = (if stopped = true then false else p.threadRunning)) := by
  refine ⟨?_, ?_, ?_, ?_, ?_⟩
  · by_cases h0 : p.consumers.usecount = 0 <;>
      simp [ProducerClass.add_consumer, Refcounter.inc_not_zero, Refcounter.inc, h0]
  · by_cases h0 : p.consumers.usecount = 0 <;>
      simp [ProducerClass.add_consumer, Refcounter.inc_not_zero, h0]
  · by_cases h0 : p.consumers.usecount = 0 <;>
      simp [ProducerClass.add_consumer, Refcounter.inc_not_zero, h0]
  · intro h0
    simp [ProducerClass.del_consumer, Refcounter.dec_and_test, h0]
  · intro h
    have hne : ¬ p.consumers.usecount = 0 := by omega
    by_cases h1 : p.consumers.usecount - 1 = 0
    · refine ⟨{ p with consumers := { p.consumers with
          usecount := p.consumers.usecount - 1 }, threadRunning := false }, true,
        by simp [ProducerClass.del_consumer, Refcounter.dec_and_test, hne, h1],
        rfl, by simp [h1], by simp⟩
    · refine ⟨{ p with consumers := { p.consumers with
          usecount := p.consumers.usecount - 1 } }, false,
        by simp [ProducerClass.del_consumer, Refcounter.dec_and_test, hne, h1],
        rfl, by simp [h1], by simp⟩

/-- Witness for C9: a fresh `ProducerClass` (count 0) starts the thread on
`add_consumer` and underflows on `del_consumer`; at count 1 with the
thread live, `del_consumer` succeeds, reaches count 0 and stops the
thread. -/
theorem ProducerClass.lifecycle_spec_witness :
    ((ProducerClass.init.add_consumer).1.consumers.usecount = 1) ∧
    ((ProducerClass.init.add_consumer).2 = true) ∧
    (ProducerClass.init.del_consumer = Except.error RefErr.underflow) ∧
    (∃ p2 stopped,
      (ProducerClass.mk (Refcounter.mk 1 false false) true).del_consumer
        = Except.ok (p2, stopped) ∧
      p2.consumers.usecount = 0 ∧
      (stopped = true ↔ p2.consumers.usecount = 0) ∧
      p2.threadRunning = (if stopped = true then false else true)) := by
  have h := ProducerClass.lifecycle_spec ProducerClass.init
  have h2 := ProducerClass.lifecycle_spec
    (ProducerClass.mk (Refcounter.mk 1 false false) true)
  refine ⟨by simpa using h.1, h.2.1.mpr (by decide), h.2.2.2.1 (by decide), ?_⟩
  obtain ⟨p2, stopped, ha, hb, hc, hd⟩ := h2.2.2.2.2 (by decide)
  exact ⟨p2, stopped, ha, by simpa using hb, hc, hd⟩
